import Mathlib

/-!
Verification of `src/spike_controller.py` (LEGO Spike Prime force-sensor
mouse controller).  The development shallowly embeds the pieces of the
script that the specification talks about:

* the line framer of `monitor_device` (lines 146-157 and 193): a byte
  buffer extended with serial chunks and split on the carriage-return
  byte 13, Python's `bytes.split` / `bytes.rfind` semantics;
* the telemetry decoder (lines 158-192): `json.loads` output modelled as
  a `PyValue` tree, with Python subscript / iteration / equality
  semantics made explicit, and every Python exception reified in
  `PyExc` so that the `except (json.JSONDecodeError, KeyError,
  IndexError)` clause can be stated exactly;
* the edge detector and click emitter (lines 175-188);
* config persistence `save_config` / `load_config` (lines 20-34) and the
  threshold prompt of `main` (lines 114-121).

Bytes are modelled as natural numbers, Python numbers (int/float/bool in
numeric position) as rationals, and the `json.loads` text parser — which
is Python standard-library code, not part of this repository — as an
abstract parameter `jp` of the pipeline.
-/

namespace Spike

/-- Python values as produced by `json.loads`: None, booleans, numbers
(ints and floats both carried as rationals), strings, lists and
string-keyed dictionaries. -/
inductive PyValue where
  | pyNone
  | pyBool (b : Bool)
  | pyInt (n : Int)
  | pyFloat (q : ℚ)
  | pyStr (s : String)
  | pyList (xs : List PyValue)
  | pyDict (kvs : List (String × PyValue))

/-- The Python exceptions that can arise inside the per-line `try` body of
`monitor_device` (lines 158-192). -/
inductive PyExc where
  | unicodeDecodeError
  | jsonDecodeError
  | keyError
  | indexError
  | typeError
  | valueError
  deriving DecidableEq

/-- Embeds the `except (json.JSONDecodeError, KeyError, IndexError)` clause
at line 189: exactly these three exception kinds are swallowed; everything
else escapes the per-line handler. -/
def caught : PyExc → Bool
  | .jsonDecodeError => true
  | .keyError => true
  | .indexError => true
  | _ => false

/-- A decoded sensor reading: `force_value` (line 167, a Python number,
modelled as a rational) and the boolean `is_touched` (line 168). -/
structure Reading where
  force : ℚ
  touched : Bool
  deriving DecidableEq

/-! ### Edge detector (lines 175-188) -/

/-- Embeds the click logic at lines 175-188 for one reading.  Returns the
new `is_pressed` state and whether `pyautogui.click()` fired.  `threshold`
is the Python int from the prompt; `force_value >= threshold` compares the
numeric reading against it. -/
def edgeStep (threshold : Int) (is_pressed : Bool) (r : Reading) : Bool × Bool :=
  if threshold = 1 then
    if r.touched && !is_pressed then (true, true)
    else if !r.touched && is_pressed then (false, false)
    else (is_pressed, false)
  else
    if (threshold : ℚ) ≤ r.force && !is_pressed then (true, true)
    else if r.force < (threshold : ℚ) && is_pressed then (false, false)
    else (is_pressed, false)

/-- Trace of the edge detector over a list of readings: for each reading,
the `is_pressed` state after it and whether a click fired on it. -/
def edgeTrace (threshold : Int) (is_pressed : Bool) : List Reading → List (Bool × Bool)
  | [] => []
  | r :: rs =>
    let s := edgeStep threshold is_pressed r
    s :: edgeTrace threshold s.1 rs

/-- The click flags of a run of the edge detector, in reading order. -/
def clickFlags (threshold : Int) (is_pressed : Bool) (rs : List Reading) : List Bool :=
  (edgeTrace threshold is_pressed rs).map Prod.snd

/-- Number of clicks emitted over a run of the edge detector. -/
def clickCount (threshold : Int) (is_pressed : Bool) (rs : List Reading) : Nat :=
  (clickFlags threshold is_pressed rs).count true

/-- Final `is_pressed` state after a run of the edge detector. -/
def edgeFinal (threshold : Int) (is_pressed : Bool) : List Reading → Bool
  | [] => is_pressed
  | r :: rs => edgeFinal threshold (edgeStep threshold is_pressed r).1 rs

/-- The press condition of the code: `is_touched` in instant mode
(threshold == 1, line 175), `force_value >= threshold` in threshold mode
(line 183). -/
def pressCond (threshold : Int) (r : Reading) : Bool :=
  if threshold = 1 then r.touched else ((threshold : ℚ) ≤ r.force)

/-! ### Python value semantics used by the decoder (lines 164-168) -/

/-- Numeric view of a Python value: `bool` is an `int` subclass in Python
(False ~ 0, True ~ 1), ints and floats are numbers; everything else is
non-numeric. -/
def toNum? : PyValue → Option ℚ
  | .pyBool b => some (if b then 1 else 0)
  | .pyInt n => some (n : ℚ)
  | .pyFloat q => some q
  | _ => none

/-- Embeds a Python comparison `v == n` against an int literal (as in
`message['m'] == 0`, `item[0] == 63`, `item[1][1] == 1`): numeric values
compare by value across int/float/bool, all other values compare unequal
to an int, and `==` never raises. -/
def pyEqInt (v : PyValue) (n : Int) : Bool :=
  match toNum? v with
  | some q => q = (n : ℚ)
  | none => false

/-- Embeds Python subscripting with a string key, as in `message['m']`:
dict lookup (KeyError when the key is absent); subscripting any non-dict
JSON value with a string raises TypeError. -/
def subscriptStr (v : PyValue) (k : String) : Except PyExc PyValue :=
  match v with
  | .pyDict kvs =>
    match kvs.lookup k with
    | some w => .ok w
    | none => .error .keyError
  | _ => .error .typeError

/-- Embeds Python subscripting with a non-negative int, as in `item[0]`,
`item[1]`, `item[1][0]`, `item[1][1]`: list/str indexing (IndexError out
of range), dict lookup with an int key (always KeyError for a JSON dict,
whose keys are strings), TypeError on numbers and None. -/
def subscriptNat (v : PyValue) (i : Nat) : Except PyExc PyValue :=
  match v with
  | .pyList xs =>
    match xs.get? i with
    | some w => .ok w
    | none => .error .indexError
  | .pyStr s =>
    match s.data.get? i with
    | some c => .ok (.pyStr (String.singleton c))
    | none => .error .indexError
  | .pyDict _ => .error .keyError
  | _ => .error .typeError

/-- Embeds Python iteration, as in `for item in message['p']`: lists yield
their elements, strings their characters, dicts their keys; numbers and
None are not iterable (TypeError). -/
def pyIter : PyValue → Except PyExc (List PyValue)
  | .pyList xs => .ok xs
  | .pyStr s => .ok (s.data.map fun c => .pyStr (String.singleton c))
  | .pyDict kvs => .ok (kvs.map fun kv => .pyStr kv.1)
  | _ => .error .typeError

/-- Embeds `isinstance(item, list)` (line 166). -/
def isPyList : PyValue → Bool
  | .pyList _ => true
  | _ => false

/-- Embeds the f-string rendering `f"Live Force: {force_value:.2f} N"` at
line 171, which sits between extraction and the click logic: formatting a
number (int, float or bool) with `:.2f` succeeds and the numeric value
flows on to the click logic; formatting a string raises ValueError
(unknown format code) and any other value raises TypeError — neither is in
the caught tuple at line 189. -/
def formatForce (v : PyValue) : Except PyExc ℚ :=
  match toNum? v with
  | some q => .ok q
  | none =>
    match v with
    | .pyStr _ => .error .valueError
    | _ => .error .typeError

/-- Embeds the body of the payload loop (lines 166-188) for a single
payload entry `item`, up to the point where a reading is in hand: skip
non-lists and entries whose first element is not 63; otherwise read
`item[1][0]` and `item[1][1]`, derive `is_touched`, and pass the force
value through the live-display formatting. -/
def itemReading (item : PyValue) : Except PyExc (Option Reading) :=
  if isPyList item then do
    let h0 ← subscriptNat item 0
    if pyEqInt h0 63 then
      let i1 ← subscriptNat item 1
      let fv ← subscriptNat i1 0
      let tv ← subscriptNat i1 1
      let touched := pyEqInt tv 1
      let q ← formatForce fv
      pure (some ⟨q, touched⟩)
    else
      pure none
  else pure none

/-- Runs `itemReading` over the payload entries in order, as the `for`
loop at line 165 does: readings accumulate one per matching entry; the
first exception stops the scan (the readings already produced have
already driven the click logic by then). -/
def scanItems : List PyValue → List Reading × Option PyExc
  | [] => ([], none)
  | it :: rest =>
    match itemReading it with
    | .error e => ([], some e)
    | .ok none => scanItems rest
    | .ok (some r) =>
      let t := scanItems rest
      (r :: t.1, t.2)

/-- Embeds lines 164-188 applied to one parsed message: evaluate
`message['m']`, compare with 0, fetch and iterate `message['p']`, and scan
the payload entries.  Returns the readings produced (in order) and the
exception that aborted the line, if any. -/
def extractReadings (message : PyValue) : List Reading × Option PyExc :=
  match subscriptStr message "m" with
  | .error e => ([], some e)
  | .ok mv =>
    if pyEqInt mv 0 then
      match subscriptStr message "p" with
      | .error e => ([], some e)
      | .ok pv =>
        match pyIter pv with
        | .error e => ([], some e)
        | .ok items => scanItems items
    else ([], none)

/-! ### UTF-8 decoding (`line.decode('utf-8')`, line 159) -/

/-- A UTF-8 continuation byte (0x80-0xBF). -/
def contByte (b : Nat) : Bool := 0x80 ≤ b && b ≤ 0xBF

/-- Strict UTF-8 validity of a byte sequence, as checked by Python's
`bytes.decode('utf-8')`: ASCII, the two- to four-byte sequences with their
restricted second bytes (no overlong encodings, no surrogates, nothing
above U+10FFFF).  Invalid input makes `decode` raise UnicodeDecodeError. -/
def utf8Valid : List Nat → Bool
  | [] => true
  | b :: rest =>
    if b ≤ 0x7F then utf8Valid rest
    else if 0xC2 ≤ b && b ≤ 0xDF then
      match rest with
      | c :: r => contByte c && utf8Valid r
      | [] => false
    else if b = 0xE0 then
      match rest with
      | c :: d :: r => (0xA0 ≤ c && c ≤ 0xBF) && contByte d && utf8Valid r
      | _ => false
    else if (0xE1 ≤ b && b ≤ 0xEC) || b = 0xEE || b = 0xEF then
      match rest with
      | c :: d :: r => contByte c && contByte d && utf8Valid r
      | _ => false
    else if b = 0xED then
      match rest with
      | c :: d :: r => (0x80 ≤ c && c ≤ 0x9F) && contByte d && utf8Valid r
      | _ => false
    else if b = 0xF0 then
      match rest with
      | c :: d :: e :: r => (0x90 ≤ c && c ≤ 0xBF) && contByte d && contByte e && utf8Valid r
      | _ => false
    else if 0xF1 ≤ b && b ≤ 0xF3 then
      match rest with
      | c :: d :: e :: r => contByte c && contByte d && contByte e && utf8Valid r
      | _ => false
    else if b = 0xF4 then
      match rest with
      | c :: d :: e :: r => (0x80 ≤ c && c ≤ 0x8F) && contByte d && contByte e && utf8Valid r
      | _ => false
    else false

/-! ### Per-line processing (lines 158-192) -/

/-- Embeds `json.loads(line.decode('utf-8'))` followed by the extraction,
for one complete line of bytes.  The JSON text parser itself is Python
standard-library code, abstracted as `jp` (applied to the UTF-8-valid
bytes of the line); a parse failure is `json.JSONDecodeError`, a UTF-8
failure is `UnicodeDecodeError`.  Returns the readings the line produced
and the exception that ended it, if any. -/
def processLine (jp : List Nat → Except Unit PyValue) (line : List Nat) :
    List Reading × Option PyExc :=
  if utf8Valid line then
    match jp line with
    | .error _ => ([], some .jsonDecodeError)
    | .ok v => extractReadings v
  else ([], some .unicodeDecodeError)

/-- Embeds the `for line in lines[:-1]` loop (lines 155-192) over the
complete lines of one iteration: each line's readings drive the edge
detector in turn; an exception in the caught tuple at line 189 is
swallowed and the loop moves to the next line, any other exception
escapes.  Returns the final `is_pressed` state and the total number of
clicks, or the escaping exception. -/
def processLines (jp : List Nat → Except Unit PyValue) (threshold : Int) :
    Bool → List (List Nat) → Except PyExc (Bool × Nat)
  | p, [] => .ok (p, 0)
  | p, l :: ls =>
    let t := processLine jp l
    let p' := edgeFinal threshold p t.1
    let n := clickCount threshold p t.1
    match t.2 with
    | some e =>
      if caught e then
        match processLines jp threshold p' ls with
        | .ok r => .ok (r.1, n + r.2)
        | .error e' => .error e'
      else .error e
    | none =>
      match processLines jp threshold p' ls with
      | .ok r => .ok (r.1, n + r.2)
      | .error e' => .error e'

/-! ### Line framer (lines 146-157 and 193) -/

/-- Python's `bytes.split(b'\r')` on a byte sequence: the segments between
carriage-return bytes, always one more segment than delimiters (so `[]`
splits to `[[]]`). -/
def pySplit : List Nat → List (List Nat)
  | [] => [[]]
  | a :: rest =>
    if a = 13 then [] :: pySplit rest
    else (pySplit rest).modifyHead (a :: ·)

/-- Python's `bytes.rfind(b'\r')`: the index of the last carriage-return
byte, or -1 when there is none. -/
def pyRfind : List Nat → Int
  | [] => -1
  | a :: rest =>
    let r := pyRfind rest
    if 0 ≤ r then r + 1
    else if a = 13 then 0 else -1

/-- One framing pass of the monitoring loop (lines 148-157 and 193) on the
current receive buffer and a newly read chunk: an empty chunk is skipped
(`if not data: continue`); otherwise the chunk is appended, and when the
buffer contains a carriage return it is split, all segments but the last
are the complete lines (empty ones skipped by `if not line: continue`),
and the buffer is cut down to everything after the last carriage return
(`recv_buf[recv_buf.rfind(b'\r')+1:]`).  Returns the processed lines and
the new buffer. -/
def framerStep (buf chunk : List Nat) : List (List Nat) × List Nat :=
  if chunk = [] then ([], buf)
  else
    let b := buf ++ chunk
    if 13 ∈ b then
      (((pySplit b).dropLast).filter (fun l => l ≠ []),
        b.drop (pyRfind b + 1).toNat)
    else ([], b)

/-- Accumulating fold of `framerStep` over successive chunks. -/
def feedStep (acc : List (List Nat) × List Nat) (chunk : List Nat) :
    List (List Nat) × List Nat :=
  let r := framerStep acc.2 chunk
  (acc.1 ++ r.1, r.2)

/-- Feed a whole list of chunks to the framer, starting from the empty
receive buffer of line 132; collects all emitted lines and the final
buffer. -/
def feedChunks (chunks : List (List Nat)) : List (List Nat) × List Nat :=
  chunks.foldl feedStep ([], [])

/-- The chunk-boundary-free description of framing a byte sequence `s`:
the emitted lines are the non-empty segments before the last delimiter,
and the buffer is the segment after the last delimiter. -/
def frameAll (s : List Nat) : List (List Nat) × List Nat :=
  (((pySplit s).dropLast).filter (fun l => l ≠ []), (pySplit s).getLastD [])

/-! ### One monitoring-loop iteration (lines 146-193) -/

/-- State owned by the monitoring loop: the receive buffer (line 132) and
the edge-detector flag (line 133). -/
structure MonState where
  recvBuf : List Nat
  isPressed : Bool
  deriving DecidableEq

/-- One iteration of the `while True` body (lines 146-193) on a chunk
returned by `ser.read_until(b'\r')`: frame the chunk, process every
complete line, and truncate the buffer.  An exception outside the caught
tuple of line 189 aborts the iteration (and with it the monitoring
session, via the outer `except Exception` at line 205).  Returns the new
loop state and the clicks fired, or the escaping exception. -/
def monitorIter (jp : List Nat → Except Unit PyValue) (threshold : Int)
    (s : MonState) (chunk : List Nat) : Except PyExc (MonState × Nat) :=
  let f := framerStep s.recvBuf chunk
  match processLines jp threshold s.isPressed f.1 with
  | .error e => .error e
  | .ok r => .ok (⟨f.2, r.1⟩, r.2)

/-! ### Config persistence (lines 20-34) and the threshold prompt -/

/-- Embeds `save_config` (lines 27-34): the dictionary serialised into
`spike_config.json`.  The `json.dump`/`json.load` round trip of the
standard library is modelled as the identity on the stored value. -/
def save_config (serial_number : String) (threshold : Int) : PyValue :=
  .pyDict [("serial_number", .pyStr serial_number),
           ("trigger_threshold", .pyInt threshold)]

/-- Embeds `load_config` (lines 20-25): the parsed content of
`spike_config.json` when the file exists, the empty dict otherwise. -/
def load_config (file : Option PyValue) : PyValue :=
  match file with
  | some v => v
  | none => .pyDict []

/-- Embeds the threshold prompt of `main` (lines 114-119):
`IntPrompt.ask` keeps asking until the user enters an integer (or accepts
the remembered default), and performs no range validation whatsoever.
`entry` is the accepted user input, `none` meaning the default was taken. -/
def sessionThreshold (entry : Option Int) (savedDefault : Int) : Int :=
  entry.getD savedDefault

/-- Embeds the session setup tail of `main` (lines 114-121): the config
record persisted by `save_config(serial_number, trigger_threshold)` after
the prompt. -/
def sessionConfigFile (serial_number : String) (entry : Option Int)
    (savedDefault : Int) : PyValue :=
  save_config serial_number (sessionThreshold entry savedDefault)

/-- A sensor-update message `{"m": 0, "p": [...]}` with the given payload
entries, as parsed by `json.loads`. -/
def sensorMessage (entries : List PyValue) : PyValue :=
  .pyDict [("m", .pyInt 0), ("p", .pyList entries)]

/-- The reading one well-shaped payload entry contributes: entries of the
form `[k, [f, t]]` with `k == 63` give `(f, t == 1)`, all others none.
Used to state what `extractReadings` does on well-shaped messages. -/
def entryReading? : PyValue → Option Reading
  | .pyList [.pyInt k, .pyList [.pyFloat f, .pyInt t]] =>
    if k = 63 then some ⟨f, decide (t = 1)⟩ else none
  | _ => none

/-! ## Lemmas about the line framer -/

theorem pySplit_ne_nil (l : List Nat) : pySplit l ≠ [] := by
  induction l with
  | nil => simp [pySplit]
  | cons a rest ih =>
    by_cases h : a = 13
    · simp [pySplit, h]
    · simp only [pySplit, if_neg h]
      cases hs : pySplit rest with
      | nil => exact absurd hs ih
      | cons x xs => simp [List.modifyHead_cons]

theorem mem_pySplit_no13 {l seg : List Nat} (h : seg ∈ pySplit l) : 13 ∉ seg := by
  induction l generalizing seg with
  | nil =>
    simp [pySplit] at h
    simp [h]
  | cons a rest ih =>
    by_cases ha : a = 13
    · simp only [pySplit, if_pos ha, List.mem_cons] at h
      rcases h with rfl | h
      · simp
      · exact ih h
    · simp only [pySplit, if_neg ha] at h
      cases hs : pySplit rest with
      | nil => exact absurd hs (pySplit_ne_nil rest)
      | cons x xs =>
        rw [hs, List.modifyHead_cons] at h
        rcases List.mem_cons.mp h with rfl | h
        · have hx : 13 ∉ x := ih (hs ▸ List.mem_cons_self x xs)
          intro hc
          rcases List.mem_cons.mp hc with h13 | h13
          · exact ha h13.symm
          · exact hx h13
        · exact ih (hs ▸ List.mem_cons_of_mem x h)

theorem pySplit_of_no13 {l : List Nat} (h : 13 ∉ l) : pySplit l = [l] := by
  induction l with
  | nil => simp [pySplit]
  | cons a rest ih =>
    have ha : a ≠ 13 := fun hc => h (hc ▸ List.mem_cons_self a rest)
    have hr : 13 ∉ rest := fun hc => h (List.mem_cons_of_mem a hc)
    simp [pySplit, if_neg ha, ih hr, List.modifyHead_cons]

theorem getLastD_append_of_ne_nil {α : Type} {A B : List α} (d : α) (h : B ≠ []) :
    (A ++ B).getLastD d = B.getLastD d := by
  rw [List.getLastD_eq_getLast?, List.getLastD_eq_getLast?,
    List.getLast?_append_of_ne_nil A h]

theorem getLastD_mem_of_ne_nil {α : Type} {l : List α} (d : α) (h : l ≠ []) :
    l.getLastD d ∈ l := by
  rw [List.getLastD_eq_getLast?, List.getLast?_eq_getLast_of_ne_nil h]
  exact List.getLast_mem h

theorem no13_getLastD_pySplit (l : List Nat) : 13 ∉ (pySplit l).getLastD [] :=
  mem_pySplit_no13 (getLastD_mem_of_ne_nil [] (pySplit_ne_nil l))

theorem pySplit_append (u v : List Nat) :
    pySplit (u ++ v) =
      (pySplit u).dropLast ++
        (pySplit v).modifyHead ((pySplit u).getLastD [] ++ ·) := by
  induction u with
  | nil =>
    cases hs : pySplit v with
    | nil => exact absurd hs (pySplit_ne_nil v)
    | cons x xs => simp [pySplit, hs, List.modifyHead_cons]
  | cons a rest ih =>
    by_cases ha : a = 13
    · subst ha
      have lhs : pySplit ((13 : Nat) :: rest ++ v) = [] :: pySplit (rest ++ v) := by
        simp [pySplit]
      rw [lhs, ih, show pySplit ((13 : Nat) :: rest) = [] :: pySplit rest from by simp [pySplit]]
      cases hs : pySplit rest with
      | nil => exact absurd hs (pySplit_ne_nil rest)
      | cons x xs => simp [List.getLastD_cons]
    · have lhs : pySplit (a :: rest ++ v) = (pySplit (rest ++ v)).modifyHead (a :: ·) := by
        simp [pySplit, if_neg ha]
      rw [lhs, ih,
        show pySplit (a :: rest) = (pySplit rest).modifyHead (a :: ·) from by
          simp [pySplit, if_neg ha]]
      cases hs : pySplit rest with
      | nil => exact absurd hs (pySplit_ne_nil rest)
      | cons x xs =>
        cases hv : pySplit v with
        | nil => exact absurd hv (pySplit_ne_nil v)
        | cons q qs =>
          cases xs with
          | nil => simp [List.modifyHead_cons, List.getLastD_cons]
          | cons y ys => simp [List.modifyHead_cons, List.getLastD_cons]

theorem length_pySplit_ge_two {l : List Nat} (h : (13 : Nat) ∈ l) :
    2 ≤ (pySplit l).length := by
  induction l with
  | nil => simp at h
  | cons a rest ih =>
    by_cases ha : a = 13
    · have := pySplit_ne_nil rest
      simp only [pySplit, if_pos ha, List.length_cons]
      cases hs : pySplit rest with
      | nil => exact absurd hs this
      | cons x xs => simp
    · have hr : (13 : Nat) ∈ rest := by
        rcases List.mem_cons.mp h with h13 | h13
        · exact absurd h13.symm ha
        · exact h13
      simp only [pySplit, if_neg ha, List.length_modifyHead]
      exact ih hr

theorem pyRfind_ge_neg_one (l : List Nat) : -1 ≤ pyRfind l := by
  induction l with
  | nil => simp [pyRfind]
  | cons a rest ih =>
    simp only [pyRfind]
    split
    · omega
    · split <;> omega

theorem pyRfind_nonneg_iff (l : List Nat) : 0 ≤ pyRfind l ↔ (13 : Nat) ∈ l := by
  induction l with
  | nil => simp [pyRfind]
  | cons a rest ih =>
    simp only [pyRfind, List.mem_cons]
    split
    · rename_i h
      constructor
      · intro _
        exact Or.inr (ih.mp h)
      · intro _
        omega
    · rename_i h
      by_cases ha : a = 13
      · simp [if_pos ha, ha]
      · simp only [if_neg ha]
        constructor
        · intro hc
          omega
        · intro hc
          rcases hc with h13 | h13
          · exact absurd h13.symm ha
          · exact absurd (ih.mpr h13) h

theorem drop_pyRfind (l : List Nat) :
    l.drop (pyRfind l + 1).toNat = (pySplit l).getLastD [] := by
  induction l with
  | nil => simp [pyRfind, pySplit]
  | cons a rest ih =>
    by_cases ht : 0 ≤ pyRfind rest
    · have hmem : (13 : Nat) ∈ rest := (pyRfind_nonneg_iff rest).mp ht
      obtain ⟨n, hn⟩ := Int.eq_ofNat_of_zero_le ht
      have hstep : pyRfind (a :: rest) = pyRfind rest + 1 := by
        simp only [pyRfind]
        rw [if_pos ht]
      have hdrop : (pyRfind (a :: rest) + 1).toNat = (pyRfind rest + 1).toNat + 1 := by
        rw [hstep, hn]
        omega
      rw [hdrop, List.drop_succ_cons, ih]
      have hlen := length_pySplit_ge_two hmem
      by_cases ha : a = 13
      · simp only [pySplit, if_pos ha]
        cases hs : pySplit rest with
        | nil => exact absurd hs (pySplit_ne_nil rest)
        | cons x xs => simp [List.getLastD_cons]
      · simp only [pySplit, if_neg ha]
        cases hs : pySplit rest with
        | nil => exact absurd hs (pySplit_ne_nil rest)
        | cons x xs =>
          cases xs with
          | nil => rw [hs] at hlen; simp at hlen
          | cons y ys => simp [List.modifyHead_cons, List.getLastD_cons]
    · have hmem : (13 : Nat) ∉ rest := fun hc => ht ((pyRfind_nonneg_iff rest).mpr hc)
      have hneg : pyRfind rest = -1 := le_antisymm (by omega) (pyRfind_ge_neg_one rest)
      by_cases ha : a = 13
      · have hstep : pyRfind (a :: rest) = 0 := by
          simp only [pyRfind]
          rw [if_neg (by omega), if_pos ha]
        rw [hstep]
        simp only [pySplit, if_pos ha, pySplit_of_no13 hmem]
        simp [List.getLastD_cons]
      · have hstep : pyRfind (a :: rest) = -1 := by
          simp only [pyRfind]
          rw [if_neg (by omega), if_neg ha]
        rw [hstep]
        simp only [pySplit, if_neg ha, pySplit_of_no13 hmem]
        simp [List.modifyHead_cons, List.getLastD_cons]

/-- When the buffer holds no carriage return (the loop invariant), one
framing step behaves like framing the concatenation from scratch. -/
theorem framerStep_eq_frameAll {buf : List Nat} (chunk : List Nat)
    (h : (13 : Nat) ∉ buf) : framerStep buf chunk = frameAll (buf ++ chunk) := by
  by_cases hc : chunk = []
  · subst hc
    simp only [framerStep, if_pos rfl, List.append_nil, frameAll, pySplit_of_no13 h]
    simp
  · simp only [framerStep, if_neg hc]
    by_cases hm : (13 : Nat) ∈ buf ++ chunk
    · rw [if_pos hm, frameAll, drop_pyRfind]
    · rw [if_neg hm, frameAll, pySplit_of_no13 hm]
      simp

/-- Framing a concatenation decomposes into framing the first part and
then framing its leftover buffer together with the second part. -/
theorem frameAll_assoc (u v : List Nat) :
    (frameAll (u ++ v)).1 = (frameAll u).1 ++ (frameAll ((frameAll u).2 ++ v)).1 ∧
      (frameAll (u ++ v)).2 = (frameAll ((frameAll u).2 ++ v)).2 := by
  have hgl : (13 : Nat) ∉ (pySplit u).getLastD [] := no13_getLastD_pySplit u
  have hsplit2 : pySplit ((pySplit u).getLastD [] ++ v) =
      (pySplit v).modifyHead ((pySplit u).getLastD [] ++ ·) := by
    rw [pySplit_append, pySplit_of_no13 hgl]
    simp [List.getLastD_cons]
  have hBne : (pySplit v).modifyHead ((pySplit u).getLastD [] ++ ·) ≠ [] := by
    cases hv : pySplit v with
    | nil => exact absurd hv (pySplit_ne_nil v)
    | cons q qs => simp [List.modifyHead_cons]
  constructor
  · show ((pySplit (u ++ v)).dropLast).filter (fun l => l ≠ []) = _
    rw [pySplit_append, List.dropLast_append_of_ne_nil _ hBne, List.filter_append]
    show _ = _ ++ ((pySplit ((pySplit u).getLastD [] ++ v)).dropLast).filter (fun l => l ≠ [])
    rw [hsplit2]
    rfl
  · show (pySplit (u ++ v)).getLastD [] = _
    rw [pySplit_append, getLastD_append_of_ne_nil _ hBne]
    show _ = (pySplit ((pySplit u).getLastD [] ++ v)).getLastD []
    rw [hsplit2]

/-- Invariant of feeding chunks to the framer from a carriage-return-free
buffer: the accumulated lines and buffer are those of framing the whole
byte sequence at once. -/
theorem feed_loop (cs : List (List Nat)) :
    ∀ (lines : List (List Nat)) (buf : List Nat), (13 : Nat) ∉ buf →
      cs.foldl feedStep (lines, buf) =
        (lines ++ (frameAll (buf ++ cs.flatten)).1, (frameAll (buf ++ cs.flatten)).2) := by
  induction cs with
  | nil =>
    intro lines buf h
    simp only [List.foldl_nil, List.flatten_nil, List.append_nil, frameAll,
      pySplit_of_no13 h]
    simp
  | cons c cs ih =>
    intro lines buf h
    rw [List.foldl_cons]
    have hstep : feedStep (lines, buf) c =
        (lines ++ (frameAll (buf ++ c)).1, (frameAll (buf ++ c)).2) := by
      simp only [feedStep, framerStep_eq_frameAll c h]
    rw [hstep, ih _ _ (by
      show (13 : Nat) ∉ (frameAll (buf ++ c)).2
      exact no13_getLastD_pySplit (buf ++ c))]
    have hass := frameAll_assoc (buf ++ c) cs.flatten
    rw [List.flatten_cons, show buf ++ (c ++ cs.flatten) = (buf ++ c) ++ cs.flatten from by
      rw [List.append_assoc]]
    rw [hass.1, hass.2, List.append_assoc]

/-- Feeding any chunk sequence equals framing its concatenation at once. -/
theorem feedChunks_frameAll (cs : List (List Nat)) :
    feedChunks cs = frameAll cs.flatten := by
  have h := feed_loop cs [] [] (by simp)
  rw [feedChunks, h]
  simp

/-! ## Lemmas about the edge detector -/

theorem clickCount_nil (th : Int) (p : Bool) : clickCount th p [] = 0 := rfl

theorem clickCount_cons (th : Int) (p : Bool) (r : Reading) (rs : List Reading) :
    clickCount th p (r :: rs) =
      clickCount th (edgeStep th p r).1 rs +
        (if (edgeStep th p r).2 then 1 else 0) := by
  simp [clickCount, clickFlags, edgeTrace, List.count_cons]

theorem press_step_released {th : Int} {r : Reading} (h : pressCond th r = true) :
    edgeStep th false r = (true, true) := by
  by_cases h1 : th = 1
  · simp only [pressCond, if_pos h1] at h
    simp [edgeStep, h1, h]
  · simp only [pressCond, if_neg h1] at h
    have hle : (th : ℚ) ≤ r.force := by simpa using h
    simp [edgeStep, h1, hle]

theorem press_step_pressed {th : Int} {r : Reading} (h : pressCond th r = true) :
    edgeStep th true r = (true, false) := by
  by_cases h1 : th = 1
  · simp only [pressCond, if_pos h1] at h
    simp [edgeStep, h1, h]
  · simp only [pressCond, if_neg h1] at h
    have hle : (th : ℚ) ≤ r.force := by simpa using h
    simp [edgeStep, h1, hle, not_lt.mpr hle]

theorem edgeStep_one (p : Bool) (r : Reading) :
    edgeStep 1 p r =
      if r.touched && !p then (true, true)
      else if !r.touched && p then (false, false)
      else (p, false) := by
  simp [edgeStep]

theorem clickCount_hold_pressed {th : Int} {rs : List Reading}
    (h : ∀ r ∈ rs, pressCond th r = true) : clickCount th true rs = 0 := by
  induction rs with
  | nil => exact clickCount_nil th true
  | cons r rest ih =>
    rw [clickCount_cons, press_step_pressed (h r (List.mem_cons_self r rest))]
    simpa using ih fun x hx => h x (List.mem_cons_of_mem r hx)

/-! ## Lemmas about the decoder -/

theorem pyEqInt_int (m n : Int) : pyEqInt (.pyInt m) n = decide (m = n) := by
  show decide ((m : ℚ) = (n : ℚ)) = decide (m = n)
  rw [decide_eq_decide]
  exact Int.cast_inj

theorem itemReading_entry (k : Int) (f : ℚ) (t : Int) :
    itemReading (.pyList [.pyInt k, .pyList [.pyFloat f, .pyInt t]]) =
      .ok (entryReading? (.pyList [.pyInt k, .pyList [.pyFloat f, .pyInt t]])) := by
  by_cases hk : k = 63
  · subst hk
    have step : itemReading (.pyList [.pyInt 63, .pyList [.pyFloat f, .pyInt t]]) =
        Except.ok (some (Reading.mk f (pyEqInt (.pyInt t) 1))) := rfl
    rw [step, pyEqInt_int t 1]
    rfl
  · show (if pyEqInt (.pyInt k) 63 then _ else _ : Except PyExc (Option Reading)) = _
    rw [pyEqInt_int k 63]
    simp only [entryReading?, if_neg hk, decide_eq_true_eq]
    rfl

theorem scanItems_wellShaped {entries : List PyValue}
    (h : ∀ e ∈ entries, ∃ (k : Int) (f : ℚ) (t : Int),
        e = PyValue.pyList [.pyInt k, .pyList [.pyFloat f, .pyInt t]]) :
    scanItems entries = (entries.filterMap entryReading?, none) := by
  induction entries with
  | nil => rfl
  | cons e rest ih =>
    obtain ⟨k, f, t, rfl⟩ := h e (List.mem_cons_self e rest)
    have hrest := ih fun x hx => h x (List.mem_cons_of_mem _ hx)
    rw [List.filterMap_cons]
    simp only [scanItems, itemReading_entry k f t]
    cases hE : entryReading? (.pyList [.pyInt k, .pyList [.pyFloat f, .pyInt t]]) with
    | none => simpa [hE] using hrest
    | some r => simp [hE, hrest]

theorem extractReadings_sensorMessage (entries : List PyValue) :
    extractReadings (sensorMessage entries) = scanItems entries := rfl

/-! ## Claim theorems -/

/-- C1: the claim says every decoding failure is swallowed at the decoder
boundary and the loop continues.  The code contradicts it: a complete line
of non-UTF-8 bytes (here the single byte 0xFF, arriving as the chunk
`b'\xff\r'`) makes `line.decode('utf-8')` raise UnicodeDecodeError, which
is not in the caught tuple `(json.JSONDecodeError, KeyError, IndexError)`
of line 189, so the exception escapes the per-line handler and the
iteration (and with it the monitoring session) aborts instead of
continuing — for every JSON parser behaviour and every threshold. -/
theorem C1_nonutf8_line_escapes_decoder :
    ∀ (jp : List Nat → Except Unit PyValue) (th : Int),
      monitorIter jp th ⟨[], false⟩ [255, 13] = .error .unicodeDecodeError ∧
        caught .unicodeDecodeError = false :=
  fun _ _ => ⟨rfl, rfl⟩

/-- C2: feeding any chunk sequence to the line framer yields exactly the
non-empty delimiter-separated segments before the last carriage return of
the concatenated bytes, with the buffer holding the bytes after the last
carriage return — hence the emitted lines depend only on the concatenated
byte sequence, not on the chunk boundaries; and on the concrete input
`b'{"a":1}\r{"a":2}\r{"a"'` fed as one chunk, exactly the two lines
`{"a":1}` and `{"a":2}` come out and the buffer holds `{"a"`. -/
theorem C2_framing_chunk_invariance :
    (∀ chunks : List (List Nat), feedChunks chunks = frameAll chunks.flatten) ∧
      feedChunks [[123, 34, 97, 34, 58, 49, 125, 13,
                   123, 34, 97, 34, 58, 50, 125, 13, 123, 34, 97, 34]] =
        ([[123, 34, 97, 34, 58, 49, 125], [123, 34, 97, 34, 58, 50, 125]],
          [123, 34, 97, 34]) :=
  ⟨feedChunks_frameAll, rfl⟩

/-- C3: in threshold mode with threshold 5, the force sequence
[3, 5, 6, 4, 5] from the released state clicks exactly on the 2nd and 5th
readings, whatever the touched flags are: the press boundary
`force_value >= threshold` is inclusive, the release boundary
`force_value < threshold` exclusive. -/
theorem C3_threshold_mode_clicks :
    ∀ t1 t2 t3 t4 t5 : Bool,
      clickFlags 5 false [⟨3, t1⟩, ⟨5, t2⟩, ⟨6, t3⟩, ⟨4, t4⟩, ⟨5, t5⟩] =
        [false, true, false, false, true] := by
  decide

/-- C4: in instant mode (threshold 1), the touched sequence
[false, true, true, false, true] from the released state clicks exactly on
the 2nd and 5th readings, whatever the force values are. -/
theorem C4_instant_mode_clicks :
    ∀ f1 f2 f3 f4 f5 : ℚ,
      clickFlags 1 false [⟨f1, false⟩, ⟨f2, true⟩, ⟨f3, true⟩, ⟨f4, false⟩, ⟨f5, true⟩] =
        [false, true, false, false, true] := by
  intro f1 f2 f3 f4 f5
  simp [clickFlags, edgeTrace, edgeStep]

/-- C5: in both modes, a non-empty run of readings all satisfying the
press condition, from the released state, produces exactly one click
regardless of its length; and a click fires only on a released-to-pressed
transition — whenever a step clicks, the state was released before and is
pressed after. -/
theorem C5_no_double_fire :
    (∀ (th : Int) (rs : List Reading), rs ≠ [] →
        (∀ r ∈ rs, pressCond th r = true) → clickCount th false rs = 1) ∧
      (∀ (th : Int) (p : Bool) (r : Reading),
        (edgeStep th p r).2 = true → p = false ∧ (edgeStep th p r).1 = true) := by
  constructor
  · intro th rs hne hall
    cases rs with
    | nil => exact absurd rfl hne
    | cons r rest =>
      rw [clickCount_cons, press_step_released (hall r (List.mem_cons_self r rest))]
      simpa using clickCount_hold_pressed fun x hx => hall x (List.mem_cons_of_mem r hx)
  · intro th p r h
    cases p
    · refine ⟨rfl, ?_⟩
      by_cases h1 : th = 1
      · simp only [edgeStep, if_pos h1] at h ⊢
        split_ifs at h ⊢
        all_goals simp_all
      · simp only [edgeStep, if_neg h1] at h ⊢
        split_ifs at h ⊢
        all_goals simp_all
    · exfalso
      by_cases h1 : th = 1
      · simp only [edgeStep, if_pos h1] at h
        split_ifs at h
        all_goals simp_all
      · simp only [edgeStep, if_neg h1] at h
        split_ifs at h
        all_goals simp_all

/-- Witness for C5 at threshold 5 and three readings of force 7. -/
theorem C5_no_double_fire_witness :
    ([⟨7, true⟩, ⟨7, true⟩, ⟨7, true⟩] : List Reading) ≠ [] ∧
      (∀ r ∈ ([⟨7, true⟩, ⟨7, true⟩, ⟨7, true⟩] : List Reading), pressCond 5 r = true) ∧
      clickCount 5 false [⟨7, true⟩, ⟨7, true⟩, ⟨7, true⟩] = 1 :=
  ⟨by decide, by decide, C5_no_double_fire.1 5 _ (by decide) (by decide)⟩

/-- C6: starting from the empty receive buffer, after any sequence of
loop iterations the buffer holds no carriage-return byte and equals
exactly the bytes after the last delimiter of everything read; and a
single framing step preserves the no-carriage-return invariant from any
buffer satisfying it, whatever the chunk. -/
theorem C6_recv_buffer_invariant :
    (∀ chunks : List (List Nat),
        (13 : Nat) ∉ (feedChunks chunks).2 ∧
          (feedChunks chunks).2 = (pySplit chunks.flatten).getLastD []) ∧
      (∀ buf chunk : List Nat, (13 : Nat) ∉ buf →
        (13 : Nat) ∉ (framerStep buf chunk).2) := by
  constructor
  · intro chunks
    rw [feedChunks_frameAll]
    exact ⟨no13_getLastD_pySplit _, rfl⟩
  · intro buf chunk h
    rw [framerStep_eq_frameAll chunk h]
    exact no13_getLastD_pySplit _

/-- Witness for C6's preservation part on buffer [97] and chunk
[98, 13, 99]. -/
theorem C6_recv_buffer_invariant_witness :
    (13 : Nat) ∉ ([97] : List Nat) ∧
      (13 : Nat) ∉ (framerStep [97] [98, 13, 99]).2 :=
  ⟨by decide, C6_recv_buffer_invariant.2 [97] [98, 13, 99] (by decide)⟩

/-- C7 counterexample: the claim says the decoder returns at most one
reading per message, but the payload loop does not stop at the first
port-63 entry — the message `{"m":0,"p":[[63,[5.5,1]],[63,[3,0]]]}`
produces two readings. -/
theorem C7_at_most_one_reading_counterexample :
    ¬ ((extractReadings (sensorMessage
        [.pyList [.pyInt 63, .pyList [.pyFloat 5.5, .pyInt 1]],
         .pyList [.pyInt 63, .pyList [.pyInt 3, .pyInt 0]]])).1.length ≤ 1) := by
  decide

/-- C7 amended: the decoder returns one reading per payload entry whose
first element equals 63 (in payload order, possibly several per message),
with touched true exactly when that entry's second element equals 1; in
particular `{"m":0,"p":[[63,[5.5,1]]]}` yields the single reading
force = 5.5, touched = true, and `{"m":0,"p":[[99,[5.5,1]]]}` yields no
reading. -/
theorem C7_reading_per_matching_entry :
    (∀ entries : List PyValue,
        (∀ e ∈ entries, ∃ (k : Int) (f : ℚ) (t : Int),
            e = PyValue.pyList [.pyInt k, .pyList [.pyFloat f, .pyInt t]]) →
        extractReadings (sensorMessage entries) =
          (entries.filterMap entryReading?, none)) ∧
      extractReadings (sensorMessage
          [.pyList [.pyInt 63, .pyList [.pyFloat 5.5, .pyInt 1]]]) =
        ([⟨5.5, true⟩], none) ∧
      extractReadings (sensorMessage
          [.pyList [.pyInt 99, .pyList [.pyFloat 5.5, .pyInt 1]]]) =
        ([], none) := by
  refine ⟨?_, rfl, rfl⟩
  intro entries h
  rw [extractReadings_sensorMessage, scanItems_wellShaped h]

/-- Witness for C7's amended statement on a two-entry payload with one
matching entry. -/
theorem C7_reading_per_matching_entry_witness :
    extractReadings (sensorMessage
        [.pyList [.pyInt 63, .pyList [.pyFloat 2, .pyInt 1]],
         .pyList [.pyInt 5, .pyList [.pyFloat 3, .pyInt 0]]]) =
      ([⟨2, true⟩], none) := by
  rw [C7_reading_per_matching_entry.1
    [.pyList [.pyInt 63, .pyList [.pyFloat 2, .pyInt 1]],
     .pyList [.pyInt 5, .pyList [.pyFloat 3, .pyInt 0]]]
    (by
      intro e he
      rcases List.mem_cons.mp he with rfl | he
      · exact ⟨63, 2, 1, rfl⟩
      rcases List.mem_cons.mp he with rfl | he
      · exact ⟨5, 3, 0, rfl⟩
      simp at he)]
  rfl

/-- C8: saving a config and loading it back reproduces the same record,
for every serial number and threshold; in particular the record saved by
`save_config("ABC123", 3)` loads back with those exact two values. -/
theorem C8_config_round_trip :
    ∀ (sn : String) (th : Int),
      load_config (some (save_config sn th)) =
          .pyDict [("serial_number", .pyStr sn), ("trigger_threshold", .pyInt th)] ∧
        subscriptStr (load_config (some (save_config sn th))) "serial_number" =
          .ok (.pyStr sn) ∧
        subscriptStr (load_config (some (save_config sn th))) "trigger_threshold" =
          .ok (.pyInt th) :=
  fun _ _ => ⟨rfl, rfl, rfl⟩

/-- C9: in instant mode the whole edge-detector behaviour — state
trajectory and click flags alike — depends only on the touched flags:
two reading sequences with identical touched flags produce identical
traces from any starting state, whatever their force values. -/
theorem C9_instant_mode_ignores_force :
    ∀ (p : Bool) (rs rs' : List Reading),
      rs.map Reading.touched = rs'.map Reading.touched →
      edgeTrace 1 p rs = edgeTrace 1 p rs' := by
  intro p rs
  induction rs generalizing p with
  | nil =>
    intro rs' h
    rw [List.map_nil] at h
    rw [List.map_eq_nil_iff.mp h.symm]
  | cons r rest ih =>
    intro rs' h
    cases rs' with
    | nil => simp at h
    | cons r' rest' =>
      simp only [List.map_cons, List.cons.injEq] at h
      obtain ⟨hh, ht⟩ := h
      have hstep : edgeStep 1 p r = edgeStep 1 p r' := by
        rw [edgeStep_one, edgeStep_one, hh]
      simp only [edgeTrace]
      rw [hstep, ih _ _ ht]

/-- Witness for C9 on two one-reading sequences with equal touched flags
and different forces. -/
theorem C9_instant_mode_ignores_force_witness :
    ([⟨3, true⟩] : List Reading).map Reading.touched =
        ([⟨9, true⟩] : List Reading).map Reading.touched ∧
      edgeTrace 1 false [⟨3, true⟩] = edgeTrace 1 false [⟨9, true⟩] :=
  ⟨rfl, C9_instant_mode_ignores_force false [⟨3, true⟩] [⟨9, true⟩] rfl⟩

/-- C10 counterexample: the claim says every persisted threshold lies in
[0, 10], but the prompt performs no range validation — entering 11 at the
prompt persists trigger_threshold = 11, which is outside the range. -/
theorem C10_threshold_range_counterexample :
    subscriptStr (sessionConfigFile "ABC123" (some 11) 1) "trigger_threshold" =
        .ok (.pyInt 11) ∧
      ¬ ((0 : Int) ≤ 11 ∧ (11 : Int) ≤ 10) :=
  ⟨rfl, by decide⟩

/-- C10 amended: the config record created by a successful session setup
has trigger_threshold equal to exactly the integer obtained from the
prompt (the entered value, or the remembered default when the entry is
accepted), persisted without any range check — so it lies in [0, 10] only
when the prompted value does. -/
theorem C10_threshold_persisted_unchecked :
    ∀ (sn : String) (entry : Option Int) (savedDefault : Int),
      subscriptStr (sessionConfigFile sn entry savedDefault) "trigger_threshold" =
        .ok (.pyInt (entry.getD savedDefault)) :=
  fun _ _ _ => rfl

end Spike
